import Mathlib

/-!
Shallow embedding of the reconciliation core of the shiftboard-bot worker
(`functions/worker/main.go`): the change classifier `getState`, the
comparison loop `compareData`, the TTL annotator `addItemTTL` (together
with the fragment of Go's `time` package semantics it relies on:
RFC3339 parsing, `AddDate`, `Unix`), the cold-start batch writer
`writeAllToDB` / `writePayloadBatch`, and the request handler
`HandleRequest`.  Effectful collaborator calls (DynamoDB put/batch
write, Lambda invoke for notification) are modelled by an oracle record
`Collab` deciding which calls fail, and the handler functions return the
trace of successfully performed calls together with an optional error.
-/

namespace ShiftboardBot

/-- A shift record as used by the worker (the fields of
`shiftboard.Shift` that the reconciliation core reads).  The `created`
and `updated` instants are `time.Time` values in Go; only their linear
order is used (`Time.Before` is strict `<`), so they are modelled as
integers. -/
structure Shift where
  id : String
  name : String
  startDate : String
  endDate : String
  created : Int
  updated : Int
deriving Repr, DecidableEq

/-- The `diff` struct of the worker: a classification state
(`"created"` or `"updated"`) paired with the shift. -/
structure Diff where
  state : String
  shift : Shift
deriving Repr, DecidableEq

/-- `getState` from `functions/worker/main.go`: scan the cache linearly
for the first entry with the same ID (the Go loop `break`s at the first
match), then report `"created"` when no entry matched, `"updated"` when
the matched entry's `updated` instant is strictly before the shift's,
and `""` otherwise. -/
def getState (shift : Shift) (cache : List Shift) : String :=
  match cache.find? (fun c => c.id == shift.id) with
  | none => "created"
  | some c => if c.updated < shift.updated then "updated" else ""

/-- `compareData` from `functions/worker/main.go`: walk `newData` in
order, appending a `diff` to the change log whenever `getState` returns
a non-empty state. -/
def compareData (newData cachedData : List Shift) : List Diff :=
  newData.foldl
    (fun changeLog shift =>
      let state := getState shift cachedData
      if state != "" then changeLog ++ [{ state := state, shift := shift }] else changeLog)
    []

/-- The classification of a single shift against a fixed cache, as an
optional change event (`none` when no event is produced). -/
def classify (cachedData : List Shift) (shift : Shift) : Option Diff :=
  let state := getState shift cachedData
  if state != "" then some { state := state, shift := shift } else none

theorem compareData_foldl_acc (newData cachedData : List Shift) (acc : List Diff) :
    newData.foldl
      (fun changeLog shift =>
        let state := getState shift cachedData
        if state != "" then changeLog ++ [{ state := state, shift := shift }] else changeLog)
      acc = acc ++ newData.filterMap (classify cachedData) := by
  induction newData generalizing acc with
  | nil => simp
  | cons s rest ih =>
    simp only [List.foldl_cons, List.filterMap_cons, classify]
    by_cases h : getState s cachedData != ""
    · simp only [h, if_pos rfl]
      rw [ih]
      simp [h, List.append_assoc]
    · simp only [h]
      rw [ih]
      simp only [Bool.not_eq_true] at h
      simp [h]

/-- `compareData` is the `filterMap` of per-shift classification against
the fixed cache snapshot. -/
theorem compareData_eq_filterMap (newData cachedData : List Shift) :
    compareData newData cachedData = newData.filterMap (classify cachedData) := by
  have h := compareData_foldl_acc newData cachedData []
  simpa [compareData] using h

/-! ### The fragment of Go's `time` package used by `addItemTTL`

`addItemTTL` calls `time.Parse(time.RFC3339, item.EndDate+"Z")`,
discards the error (a failed parse yields Go's zero `Time`,
January 1 of year 1, 00:00:00 UTC), adds one calendar month with
`AddDate(0, 1, 0)` and converts to Unix seconds.  The civil calendar is
Go's proleptic Gregorian one. -/

/-- A civil date-time in UTC, as produced by parsing an RFC3339 string
with a `Z` zone.  `month` is 1–12 after a successful parse. -/
structure CivilTime where
  year : Int
  month : Nat
  day : Nat
  hour : Nat
  minute : Nat
  second : Nat
deriving Repr, DecidableEq

/-- Go's zero `time.Time`: January 1, year 1, 00:00:00 UTC. -/
def zeroTime : CivilTime := ⟨1, 1, 1, 0, 0, 0⟩

/-- Leap year in the proleptic Gregorian calendar (Go `isLeap`). -/
def isLeap (y : Int) : Bool :=
  y % 4 == 0 && (y % 100 != 0 || y % 400 == 0)

/-- Number of days in a month (used by Go's parser to range-check the
day field). -/
def daysInMonth (y : Int) (m : Nat) : Nat :=
  match m with
  | 1 => 31 | 3 => 31 | 5 => 31 | 7 => 31 | 8 => 31 | 10 => 31 | 12 => 31
  | 4 => 30 | 6 => 30 | 9 => 30 | 11 => 30
  | 2 => if isLeap y then 29 else 28
  | _ => 0

/-- Days since the Unix epoch of the civil date `(y, m, d)` with
`m ∈ 1..12` (Go's internal `date → absolute seconds` conversion; a day
beyond the month's length rolls over into the following month, which is
how Go normalizes `Date`). -/
def daysFromCivil (y : Int) (m d : Nat) : Int :=
  let y' : Int := if m ≤ 2 then y - 1 else y
  let era : Int := y'.ediv 400
  let yoe : Int := y' - era * 400
  let mp : Nat := (m + 9) % 12
  let doy : Int := (153 * (mp : Int) + 2) / 5 + (d : Int) - 1
  let doe : Int := yoe * 365 + yoe / 4 - yoe / 100 + doy
  era * 146097 + doe - 719468

/-- Unix seconds of a civil UTC date-time (Go `Time.Unix`). -/
def civilUnix (t : CivilTime) : Int :=
  (daysFromCivil t.year t.month 1 + ((t.day : Int) - 1)) * 86400
    + (t.hour : Int) * 3600 + (t.minute : Int) * 60 + (t.second : Int)

/-- Go `Time.AddDate(0, n, 0)`: add `n` calendar months, normalizing
the month into 1..12 by carrying whole years (floor division, as Go's
`norm` does); the day is left as is and normalized only at the
`Unix` conversion. -/
def addDateMonths (n : Int) (t : CivilTime) : CivilTime :=
  let m0 : Int := (t.month : Int) - 1 + n
  { t with year := t.year + m0.ediv 12, month := (m0.emod 12 + 1).toNat }

/-- Parse exactly two decimal digits. -/
def digits2 : List Char → Option (Nat × List Char)
  | a :: b :: rest =>
    if a.isDigit && b.isDigit then
      some ((a.toNat - 48) * 10 + (b.toNat - 48), rest)
    else none
  | _ => none

/-- Parse exactly four decimal digits. -/
def digits4 : List Char → Option (Nat × List Char)
  | a :: b :: c :: d :: rest =>
    if a.isDigit && b.isDigit && c.isDigit && d.isDigit then
      some ((a.toNat - 48) * 1000 + (b.toNat - 48) * 100 + (c.toNat - 48) * 10
        + (d.toNat - 48), rest)
    else none
  | _ => none

/-- Parse one or two decimal digits — Go's `getnum` with `fixed=false`,
used by `time.Parse` for the `15` hour field of the RFC3339 layout in
the repo's pinned Go 1.18 (single-digit hours are rejected only from
Go 1.20 on): two digits when the second character is a digit, otherwise
one. -/
def digits12 : List Char → Option (Nat × List Char)
  | a :: b :: rest =>
    if a.isDigit then
      if b.isDigit then some ((a.toNat - 48) * 10 + (b.toNat - 48), rest)
      else some (a.toNat - 48, b :: rest)
    else none
  | [a] => if a.isDigit then some (a.toNat - 48, []) else none
  | [] => none

/-- Consume an expected literal character. -/
def expectChar (c : Char) : List Char → Option (List Char)
  | x :: rest => if x == c then some rest else none
  | [] => none

/-- Consume an optional fractional-seconds field: either nothing, or a
period or comma (`commaOrPeriod` in Go 1.18's parser; commas are
accepted since Go 1.17) followed by at least one digit.  The fraction
does not contribute to `Unix`, which truncates to whole seconds. -/
def dropFraction : List Char → Option (List Char)
  | c :: rest =>
    if c == '.' || c == ',' then
      match rest with
      | c' :: rest' => if c'.isDigit then some (rest'.dropWhile Char.isDigit) else none
      | [] => none
    else some (c :: rest)
  | [] => some []

/-- `time.Parse(time.RFC3339, s)` of the repo's pinned Go 1.18, for the
shapes reachable from the worker, which always appends `"Z"` to the
end-date string: a zone offset other than the final literal `Z` cannot
parse (any `±hh:mm` offset inside `s` leaves the appended `Z` as
trailing garbage), so the accepted strings are exactly
`YYYY-MM-DDTH[H]:MM:SS[.fraction]Z` — year, month, day, minute and
second fixed-width per the layout, the hour one or two digits (Go 1.18
`getnum` non-fixed), the fraction introduced by a period or comma —
with all fields in range, the day range-checked against the month's
length. -/
def parseRFC3339 (s : String) : Option CivilTime := do
  let l := s.toList
  let (year, l) ← digits4 l
  let l ← expectChar '-' l
  let (month, l) ← digits2 l
  let l ← expectChar '-' l
  let (day, l) ← digits2 l
  let l ← expectChar 'T' l
  let (hour, l) ← digits12 l
  let l ← expectChar ':' l
  let (minute, l) ← digits2 l
  let l ← expectChar ':' l
  let (second, l) ← digits2 l
  let l ← dropFraction l
  let l ← expectChar 'Z' l
  if l.isEmpty && 1 ≤ month && month ≤ 12 && 1 ≤ day
      && day ≤ daysInMonth (year : Int) month
      && hour ≤ 23 && minute ≤ 59 && second ≤ 59 then
    some ⟨(year : Int), month, day, hour, minute, second⟩
  else none

/-- A shift extended with the DynamoDB TTL attribute (`ShiftExt`). -/
structure ShiftExt where
  shift : Shift
  ttl : Int
deriving Repr, DecidableEq

/-- `addItemTTL` from `functions/worker/main.go`: parse
`item.EndDate + "Z"` as RFC3339 (ignoring the error, so a failed parse
leaves the zero time), set the TTL to the Unix seconds of one calendar
month after the parsed instant. -/
def addItemTTL (item : Shift) : ShiftExt :=
  let endDate := (parseRFC3339 (item.endDate ++ "Z")).getD zeroTime
  let ttl := addDateMonths 1 endDate
  { shift := item, ttl := civilUnix ttl }

/-! ### Effectful part of the worker

The handler's side effects (DynamoDB `PutItem` / `BatchWriteItem`,
Lambda `Invoke` of the notification function) are recorded as a trace
of successfully performed calls; an oracle `Collab` decides which calls
fail (for `BatchWriteItem`, whether the call reports unprocessed
items — the call itself is issued and therefore recorded).  Each
function returns its trace together with `none` on success or
`some msg` carrying the error it surfaces. -/

/-- The notification `message` struct (unset fields are Go zero
values).  The `created`/`updated` instants are rendered by `toString`,
standing in for Go's default `%s` formatting of `time.Time`. -/
structure Message where
  charSet : String := ""
  htmlBody : String := ""
  recipient : String := ""
  sender : String := ""
  subject : String := ""
  textBody : String := ""
deriving Repr, DecidableEq

/-- `constructMessage` from `functions/worker/main.go`. -/
def constructMessage (item : Diff) : Message :=
  let shift := item.shift
  let msg : Message := {}
  let msg :=
    if item.state == "created" then
      { msg with
        subject := "New shift added: " ++ shift.name,
        textBody := "Shift has been added for '" ++ shift.name ++ "' on "
          ++ toString shift.created }
    else msg
  let msg :=
    if item.state == "updated" then
      { msg with
        subject := "Shift updated: " ++ shift.name,
        textBody := "Shift for '" ++ shift.name ++ "' was updated on "
          ++ toString shift.updated }
    else msg
  { msg with htmlBody := "<p>" ++ msg.textBody ++ "</p>" }

/-- One successfully performed collaborator call. -/
inductive Action where
  /-- A `BatchWriteItem` call carrying one chunk of TTL-annotated
  shifts (recorded even when the reply lists unprocessed items). -/
  | batchWrite (items : List ShiftExt)
  /-- A successful `Invoke` of the notification function. -/
  | notify (msg : Message)
  /-- A successful `PutItem` of one TTL-annotated shift. -/
  | put (item : ShiftExt)
deriving Repr, DecidableEq

/-- Oracle describing the collaborators' behavior for one invocation:
which batch-write replies list unprocessed items, which notification
invokes fail, and which single-item puts fail. -/
structure Collab where
  unprocessed : List ShiftExt → Bool
  notifyFails : Message → Bool
  putFails : ShiftExt → Bool

/-- The chunking loop of `writeAllToDB`
(`for start := 0; start < len(payload); start += batch` with
`batch = dbBatchCount = 25`): consecutive slices of 25 items, the last
possibly shorter. -/
def chunkList (payload : List Shift) : List (List Shift) :=
  match payload with
  | [] => []
  | x :: rest => (x :: rest).take 25 :: chunkList ((x :: rest).drop 25)
termination_by payload.length
decreasing_by simp; omega

/-- `writePayloadBatch`: annotate each item of the chunk with its TTL,
issue one `BatchWriteItem` call, and fail when the reply lists
unprocessed items. -/
def writePayloadBatch (col : Collab) (chunk : List Shift) :
    List Action × Option String :=
  let items := chunk.map addItemTTL
  if col.unprocessed items then
    ([Action.batchWrite items], some "identified unprocessed batch items")
  else
    ([Action.batchWrite items], none)

/-- The body of `writeAllToDB`'s loop over the chunks: issue the batch
calls in order, stopping with `"error writing batch payload"` at the
first failing one. -/
def runBatches (col : Collab) : List (List Shift) → List Action × Option String
  | [] => ([], none)
  | chunk :: rest =>
    match writePayloadBatch col chunk with
    | (tr, some _) => (tr, some "error writing batch payload")
    | (tr, none) =>
      let (tr', e) := runBatches col rest
      (tr ++ tr', e)

/-- `writeAllToDB` from `functions/worker/main.go`: chunk the payload
into batches of 25 and write each batch in order. -/
def writeAllToDB (col : Collab) (payload : List Shift) :
    List Action × Option String :=
  runBatches col (chunkList payload)

/-- The warm-path loop of `HandleRequest` over the change log: for each
diff, build the message, invoke the notification function, and only
then put the TTL-annotated shift; either failure stops the loop and
surfaces an error. -/
def processChanges (col : Collab) : List Diff → List Action × Option String
  | [] => ([], none)
  | d :: rest =>
    let msg := constructMessage d
    if col.notifyFails msg then
      ([], some "error sending notification")
    else
      let item := addItemTTL d.shift
      if col.putFails item then
        ([Action.notify msg], some "error writing shift to DynamoDB")
      else
        let (tr, e) := processChanges col rest
        (Action.notify msg :: Action.put item :: tr, e)

/-- `HandleRequest` from `functions/worker/main.go`, after the cache
scan (`cachedData` is the scan's result, passed as a parameter): on an
empty cache, write everything in batches and stop; otherwise walk the
change log computed by `compareData`, notifying and persisting each
entry. -/
def handleRequest (col : Collab) (payload cachedData : List Shift) :
    List Action × Except String String :=
  if cachedData.isEmpty then
    match writeAllToDB col payload with
    | (tr, none) => (tr, Except.ok "Success")
    | (tr, some _) => (tr, Except.error "error writing data to DynamoDB table")
  else
    match processChanges col (compareData payload cachedData) with
    | (tr, none) => (tr, Except.ok "Success")
    | (tr, some e) => (tr, Except.error e)

/-! ### Classifier lemmas -/

theorem getState_eq_created_iff (s : Shift) (cache : List Shift) :
    getState s cache = "created" ↔ ∀ c ∈ cache, c.id ≠ s.id := by
  unfold getState
  cases h : cache.find? (fun c => c.id == s.id) with
  | none =>
    simp only [true_iff]
    intro c hc
    have := List.find?_eq_none.mp h c hc
    simpa using this
  | some c =>
    have hid : c.id = s.id := by simpa using List.find?_some h
    have hmem : c ∈ cache := List.mem_of_find?_eq_some h
    constructor
    · intro heq
      by_cases hu : c.updated < s.updated <;> simp [hu] at heq
    · intro hall
      exact absurd hid (hall c hmem)

theorem getState_of_find?_eq_some (s : Shift) (cache : List Shift) (c : Shift)
    (h : cache.find? (fun c => c.id == s.id) = some c) :
    getState s cache = if c.updated < s.updated then "updated" else "" := by
  unfold getState
  rw [h]

/-- Members of the cache with the shift's identifier are unique when
the cache's identifiers are pairwise distinct, so they coincide with
the first match found by the linear scan. -/
theorem find?_id_unique (s : Shift) (cache : List Shift)
    (hnd : (cache.map Shift.id).Nodup) (c c' : Shift)
    (hc : c ∈ cache) (hc' : c' ∈ cache)
    (h : c.id = s.id) (h' : c'.id = s.id) : c = c' :=
  List.inj_on_of_nodup_map hnd hc hc' (h.trans h'.symm)

/-! ### C1: classification of `getState` -/

/-- A shift whose cache holds two entries with the same identifier,
exercising the `break` at the first match in `getState`'s scan. -/
def dupShift : Shift := ⟨"A", "", "", "", 0, 3⟩

/-- A cache with a duplicated identifier: the first entry is newer than
`dupShift`, the second strictly older. -/
def dupCache : List Shift := [⟨"A", "", "", "", 0, 5⟩, ⟨"A", "", "", "", 0, 0⟩]

/-- C1 (counterexample): as stated over every cache sequence the claim
fails — in `dupCache` an entry with `dupShift`'s identifier and a
strictly earlier `updated` timestamp exists, yet `getState` returns
`""` rather than `"updated"`, because the linear scan stops at the
first matching entry, which is not older. -/
theorem getState_existential_updated_refuted :
    ((⟨"A", "", "", "", 0, 0⟩ : Shift) ∈ dupCache ∧
      (⟨"A", "", "", "", 0, 0⟩ : Shift).id = dupShift.id ∧
      (⟨"A", "", "", "", 0, 0⟩ : Shift).updated < dupShift.updated) ∧
    getState dupShift dupCache ≠ "updated" := by decide

/-- C1 (amended: the equivalences hold for caches whose identifiers
are pairwise distinct, the §3 store invariant): `getState` returns
`"created"` iff no cache entry has the shift's identifier, `"updated"`
iff an entry with the identifier exists whose `updated` timestamp is
strictly earlier than the shift's, and `""` iff an entry with the
identifier exists whose `updated` timestamp is not older. -/
theorem getState_classification (s : Shift) (cache : List Shift)
    (hnd : (cache.map Shift.id).Nodup) :
    (getState s cache = "created" ↔ ∀ c ∈ cache, c.id ≠ s.id) ∧
    (getState s cache = "updated" ↔
      ∃ c ∈ cache, c.id = s.id ∧ c.updated < s.updated) ∧
    (getState s cache = "" ↔
      ∃ c ∈ cache, c.id = s.id ∧ s.updated ≤ c.updated) := by
  refine ⟨getState_eq_created_iff s cache, ?_⟩
  cases h : cache.find? (fun c => c.id == s.id) with
  | none =>
    have hnone : ∀ c ∈ cache, c.id ≠ s.id := by
      intro c hc
      have := List.find?_eq_none.mp h c hc
      simpa using this
    have hg : getState s cache = "created" := by
      unfold getState; rw [h]
    rw [hg]
    constructor
    · constructor
      · intro hx; exact absurd hx (by decide)
      · rintro ⟨c, hc, hcid, -⟩; exact absurd hcid (hnone c hc)
    · constructor
      · intro hx; exact absurd hx (by decide)
      · rintro ⟨c, hc, hcid, -⟩; exact absurd hcid (hnone c hc)
  | some c =>
    have hid : c.id = s.id := by simpa using List.find?_some h
    have hmem : c ∈ cache := List.mem_of_find?_eq_some h
    have huniq : ∀ c' ∈ cache, c'.id = s.id → c' = c := fun c' hc' h' =>
      find?_id_unique s cache hnd c' c hc' hmem h' hid
    have hg := getState_of_find?_eq_some s cache c h
    by_cases hu : c.updated < s.updated
    · rw [if_pos hu] at hg
      rw [hg]
      constructor
      · simp only [iff_true_intro rfl, true_iff]
        exact ⟨c, hmem, hid, hu⟩
      · constructor
        · intro hx; exact absurd hx (by decide)
        · rintro ⟨c', hc', hcid, hle⟩
          have := huniq c' hc' hcid
          subst this
          omega
    · rw [if_neg hu] at hg
      rw [hg]
      constructor
      · constructor
        · intro hx; exact absurd hx (by decide)
        · rintro ⟨c', hc', hcid, hlt⟩
          have := huniq c' hc' hcid
          subst this
          omega
      · simp only [iff_true_intro rfl, true_iff]
        exact ⟨c, hmem, hid, by omega⟩

/-- C1 (witness): the amended classification applied to a concrete
shift against a concrete duplicate-free cache. -/
theorem getState_classification_witness :
    (getState ⟨"A", "", "", "", 0, 3⟩ [⟨"A", "", "", "", 0, 1⟩, ⟨"B", "", "", "", 0, 7⟩]
        = "created" ↔
      ∀ c ∈ [(⟨"A", "", "", "", 0, 1⟩ : Shift), ⟨"B", "", "", "", 0, 7⟩],
        c.id ≠ (⟨"A", "", "", "", 0, 3⟩ : Shift).id) ∧
    (getState ⟨"A", "", "", "", 0, 3⟩ [⟨"A", "", "", "", 0, 1⟩, ⟨"B", "", "", "", 0, 7⟩]
        = "updated" ↔
      ∃ c ∈ [(⟨"A", "", "", "", 0, 1⟩ : Shift), ⟨"B", "", "", "", 0, 7⟩],
        c.id = (⟨"A", "", "", "", 0, 3⟩ : Shift).id ∧
          c.updated < (⟨"A", "", "", "", 0, 3⟩ : Shift).updated) ∧
    (getState ⟨"A", "", "", "", 0, 3⟩ [⟨"A", "", "", "", 0, 1⟩, ⟨"B", "", "", "", 0, 7⟩]
        = "" ↔
      ∃ c ∈ [(⟨"A", "", "", "", 0, 1⟩ : Shift), ⟨"B", "", "", "", 0, 7⟩],
        c.id = (⟨"A", "", "", "", 0, 3⟩ : Shift).id ∧
          (⟨"A", "", "", "", 0, 3⟩ : Shift).updated ≤ c.updated) :=
  getState_classification ⟨"A", "", "", "", 0, 3⟩
    [⟨"A", "", "", "", 0, 1⟩, ⟨"B", "", "", "", 0, 7⟩] (by decide)

/-! ### C4, C10: structure of the change log -/

theorem compareData_map_shift (newData cachedData : List Shift) :
    (compareData newData cachedData).map Diff.shift
      = newData.filter (fun s => getState s cachedData != "") := by
  rw [compareData_eq_filterMap]
  induction newData with
  | nil => rfl
  | cons s rest ih =>
    rw [List.filterMap_cons, List.filter_cons]
    by_cases h : getState s cachedData != ""
    · simp [classify, h, ih]
    · simp only [Bool.not_eq_true, bne_eq_false_iff_eq] at h
      simp [classify, h, ih]

/-- C4: the change log returned by `compareData` lists the classified
shifts in the same relative order as `newData` — projecting the events
to their shifts gives exactly the sublist of `newData` whose
classification state is non-empty, an order-preserving subsequence of
`newData`. -/
theorem compareData_order_preserving (newData cachedData : List Shift) :
    (compareData newData cachedData).map Diff.shift
      = newData.filter (fun s => getState s cachedData != "") ∧
    List.Sublist ((compareData newData cachedData).map Diff.shift) newData := by
  refine ⟨compareData_map_shift newData cachedData, ?_⟩
  rw [compareData_map_shift]
  exact List.filter_sublist newData

/-- C10: classification within one cycle is against the fixed cache
snapshot — `compareData` is the `filterMap` of the per-shift classifier
over `newData`, so it distributes over concatenation and each
occurrence of a shift (duplicates included) is classified independently
of the events produced for earlier elements and yields its own change
event. -/
theorem compareData_fixed_snapshot (xs ys newData cachedData : List Shift) :
    compareData (xs ++ ys) cachedData
        = compareData xs cachedData ++ compareData ys cachedData ∧
    compareData newData cachedData = newData.filterMap (classify cachedData) := by
  constructor
  · rw [compareData_eq_filterMap, compareData_eq_filterMap, compareData_eq_filterMap,
      List.filterMap_append]
  · exact compareData_eq_filterMap newData cachedData

/-! ### C5: idempotence of reconciliation -/

/-- Two occurrences of the same identifier inside `newData` itself,
with strictly increasing `updated` timestamps. -/
def selfDupData : List Shift := [⟨"A", "", "", "", 0, 1⟩, ⟨"A", "", "", "", 0, 2⟩]

/-- C5 (counterexample): with `newData` containing two shifts sharing
an identifier with increasing `updated` timestamps, comparing `newData`
against itself as the cache still produces a change event — the second
occurrence is compared against the first (the scan's first match),
which is strictly older — so idempotence fails as stated over every
`newData`. -/
theorem compareData_self_not_nil :
    compareData selfDupData selfDupData
      = [{ state := "updated", shift := ⟨"A", "", "", "", 0, 2⟩ }] ∧
    compareData selfDupData selfDupData ≠ [] := by decide

/-- C5 (amended: for every `newData` whose identifiers are pairwise
distinct, the §3 store invariant): a second run with the identical
`newData` now cached produces zero change events. -/
theorem compareData_self_eq_nil (newData : List Shift)
    (hnd : (newData.map Shift.id).Nodup) :
    compareData newData newData = [] := by
  rw [compareData_eq_filterMap]
  rw [List.filterMap_eq_nil_iff]
  intro s hs
  have hfind : ∀ c, newData.find? (fun c => c.id == s.id) = some c →
      classify newData s = none := by
    intro c hc
    have hid : c.id = s.id := by simpa using List.find?_some hc
    have hmem : c ∈ newData := List.mem_of_find?_eq_some hc
    have hcs : c = s := find?_id_unique s newData hnd c s hmem hs hid rfl
    have hg := getState_of_find?_eq_some s newData c hc
    rw [hcs, if_neg (lt_irrefl s.updated)] at hg
    unfold classify
    simp [hg]
  cases h : newData.find? (fun c => c.id == s.id) with
  | none =>
    have := List.find?_eq_none.mp h s hs
    simp at this
  | some c => exact hfind c h

/-- C5 (witness): idempotence at a concrete two-element `newData` with
distinct identifiers. -/
theorem compareData_self_eq_nil_witness :
    compareData [⟨"A", "", "", "", 0, 1⟩, ⟨"B", "", "", "", 0, 7⟩]
      [⟨"A", "", "", "", 0, 1⟩, ⟨"B", "", "", "", 0, 7⟩] = [] :=
  compareData_self_eq_nil [⟨"A", "", "", "", 0, 1⟩, ⟨"B", "", "", "", 0, 7⟩] (by decide)

/-! ### C6, C9: the TTL annotator -/

/-- The worker test fixture shift (`MockItem.New` in the worker's
tests) with end date `2022-06-15T12:00:00`. -/
def fixtureShift : Shift :=
  { id := "100000000", name := "mock", startDate := "2022-06-15T12:00:00",
    endDate := "2022-06-15T12:00:00", created := 0, updated := 0 }

/-- C6: `addItemTTL` parses the end-date string (with `Z` appended) as
a timestamp, adds one calendar month and emits Unix seconds — for end
date `2022-06-15T12:00:00` the parse yields 2022-06-15 12:00:00 UTC,
the month addition yields 2022-07-15 12:00:00 UTC, and the emitted TTL
is `1657886400`, the Unix timestamp of that instant (matching the
source test fixture). -/
theorem addItemTTL_fixture :
    parseRFC3339 ("2022-06-15T12:00:00" ++ "Z") = some ⟨2022, 6, 15, 12, 0, 0⟩ ∧
    addDateMonths 1 ⟨2022, 6, 15, 12, 0, 0⟩ = ⟨2022, 7, 15, 12, 0, 0⟩ ∧
    civilUnix ⟨2022, 7, 15, 12, 0, 0⟩ = 1657886400 ∧
    (addItemTTL fixtureShift).ttl = 1657886400 := by decide

/-- C9: when the end-date string with `Z` appended does not parse as
RFC3339, `addItemTTL` signals no error — it returns the record with the
TTL computed from Go's zero time plus one calendar month,
`-62132918400` Unix seconds (February 1 of year 1), so malformed end
dates are accepted and annotated rather than rejected. -/
theorem addItemTTL_malformed (item : Shift)
    (h : parseRFC3339 (item.endDate ++ "Z") = none) :
    addItemTTL item = { shift := item, ttl := -62132918400 } ∧
    civilUnix (addDateMonths 1 zeroTime) = -62132918400 := by
  have hz : civilUnix (addDateMonths 1 zeroTime) = -62132918400 := by decide
  refine ⟨?_, hz⟩
  unfold addItemTTL
  rw [h]
  simp only [Option.getD_none]
  rw [hz]

/-- C9 (witness): a concrete malformed end date. -/
theorem addItemTTL_malformed_witness :
    addItemTTL ⟨"9", "n", "", "garbage", 0, 0⟩
      = { shift := ⟨"9", "n", "", "garbage", 0, 0⟩, ttl := -62132918400 } ∧
    civilUnix (addDateMonths 1 zeroTime) = -62132918400 :=
  addItemTTL_malformed ⟨"9", "n", "", "garbage", 0, 0⟩ (by decide)

/-! ### C7: the cold-start batch writer -/

theorem chunkList_nil : chunkList [] = [] := by
  unfold chunkList
  rfl

theorem chunkList_cons (x : Shift) (rest : List Shift) :
    chunkList (x :: rest)
      = (x :: rest).take 25 :: chunkList ((x :: rest).drop 25) := by
  conv_lhs => rw [chunkList]

theorem chunkList_flatten (payload : List Shift) :
    (chunkList payload).flatten = payload := by
  induction payload using chunkList.induct with
  | case1 => simp [chunkList_nil]
  | case2 x rest ih =>
    rw [chunkList_cons, List.flatten_cons, ih, List.take_append_drop]

theorem chunkList_eq_nil_iff (payload : List Shift) :
    chunkList payload = [] ↔ payload = [] := by
  cases payload with
  | nil => simp [chunkList_nil]
  | cons x rest => simp [chunkList_cons]

theorem chunkList_length_le (payload : List Shift) :
    ∀ c ∈ chunkList payload, 0 < c.length ∧ c.length ≤ 25 := by
  induction payload using chunkList.induct with
  | case1 => simp [chunkList_nil]
  | case2 x rest ih =>
    rw [chunkList_cons]
    intro c hc
    rcases List.mem_cons.mp hc with h | h
    · subst h
      simp [List.length_take]
    · exact ih c h

theorem chunkList_dropLast_length (payload : List Shift) :
    ∀ c ∈ (chunkList payload).dropLast, c.length = 25 := by
  induction payload using chunkList.induct with
  | case1 => simp [chunkList_nil]
  | case2 x rest ih =>
    rw [chunkList_cons]
    cases hd : chunkList ((x :: rest).drop 25) with
    | nil => simp
    | cons c' cs =>
      rw [List.dropLast_cons₂]
      intro c hc
      rcases List.mem_cons.mp hc with h | h
      · subst h
        have hne : (x :: rest).drop 25 ≠ [] := by
          intro hnil
          rw [hnil, chunkList_nil] at hd
          exact List.noConfusion hd
        have hgt : 25 < rest.length + 1 := by
          by_contra hle
          apply hne
          apply List.drop_eq_nil_of_le
          simp only [List.length_cons]
          omega
        simp only [List.length_take, List.length_cons]
        omega
      · rw [← hd] at h
        exact ih c h

theorem runBatches_ok (col : Collab) (chunks : List (List Shift))
    (hok : ∀ c ∈ chunks, col.unprocessed (c.map addItemTTL) = false) :
    runBatches col chunks
      = (chunks.map (fun c => Action.batchWrite (c.map addItemTTL)), none) := by
  induction chunks with
  | nil => rfl
  | cons c rest ih =>
    have hc := hok c (by simp)
    have ih' := ih (fun c' h' => hok c' (by simp [h']))
    simp [runBatches, writePayloadBatch, hc, ih']

theorem runBatches_fail (col : Collab) (pre : List (List Shift))
    (chunk : List Shift) (post : List (List Shift))
    (hok : ∀ c ∈ pre, col.unprocessed (c.map addItemTTL) = false)
    (hbad : col.unprocessed (chunk.map addItemTTL) = true) :
    runBatches col (pre ++ chunk :: post)
      = ((pre ++ [chunk]).map (fun c => Action.batchWrite (c.map addItemTTL)),
         some "error writing batch payload") := by
  induction pre with
  | nil => simp [runBatches, writePayloadBatch, hbad]
  | cons c rest ih =>
    have hc := hok c (by simp)
    have ih' := ih (fun c' h' => hok c' (by simp [h']))
    simp [runBatches, writePayloadBatch, hc, ih']

theorem chunkList_map_length_30 (payload : List Shift)
    (h : payload.length = 30) :
    (chunkList payload).map List.length = [25, 5] := by
  cases payload with
  | nil => simp at h
  | cons x rest =>
    rw [chunkList_cons]
    cases hd : (x :: rest).drop 25 with
    | nil =>
      have hlen := congrArg List.length hd
      simp only [List.length_drop, List.length_nil] at hlen
      exact absurd hlen (by omega)
    | cons y r =>
      have h5 : (y :: r).length = 5 := by
        have hlen := congrArg List.length hd
        simp only [List.length_drop, h] at hlen
        omega
      rw [chunkList_cons]
      have hr : ((y :: r).drop 25) = [] := List.drop_eq_nil_of_le (by omega)
      rw [hr, chunkList_nil]
      have hx : rest.length = 29 := by
        simp only [List.length_cons] at h
        omega
      have hr4 : r.length = 4 := by
        simp only [List.length_cons] at h5
        omega
      simp [List.length_take, hx, hr4]

/-- C7: the cold-start writer chunks the payload into consecutive
batches of fixed size 25 (the last possibly smaller, the concatenation
of the chunks restoring the payload), issues exactly one
`BatchWriteItem` call per chunk in order when no call reports
unprocessed items — for a 30-shift payload exactly two calls of sizes
25 and 5 — and stops with an error at the first call whose reply lists
unprocessed items. -/
theorem writeAllToDB_chunking :
    (∀ payload : List Shift,
      (chunkList payload).flatten = payload ∧
      (∀ c ∈ (chunkList payload).dropLast, c.length = 25) ∧
      (∀ c ∈ chunkList payload, 0 < c.length ∧ c.length ≤ 25)) ∧
    (∀ (col : Collab) (payload : List Shift),
      (∀ c ∈ chunkList payload, col.unprocessed (c.map addItemTTL) = false) →
      writeAllToDB col payload
        = ((chunkList payload).map (fun c => Action.batchWrite (c.map addItemTTL)),
           none)) ∧
    (∀ payload : List Shift, payload.length = 30 →
      (chunkList payload).map List.length = [25, 5]) ∧
    (∀ (col : Collab) (payload : List Shift) (chunk : List Shift)
        (pre post : List (List Shift)),
      chunkList payload = pre ++ chunk :: post →
      (∀ c ∈ pre, col.unprocessed (c.map addItemTTL) = false) →
      col.unprocessed (chunk.map addItemTTL) = true →
      writeAllToDB col payload
        = ((pre ++ [chunk]).map (fun c => Action.batchWrite (c.map addItemTTL)),
           some "error writing batch payload")) := by
  refine ⟨?_, ?_, ?_, ?_⟩
  · intro payload
    exact ⟨chunkList_flatten payload, chunkList_dropLast_length payload,
      chunkList_length_le payload⟩
  · intro col payload hok
    exact runBatches_ok col (chunkList payload) hok
  · intro payload h
    exact chunkList_map_length_30 payload h
  · intro col payload chunk pre post hsplit hok hbad
    unfold writeAllToDB
    rw [hsplit]
    exact runBatches_fail col pre chunk post hok hbad

/-- A collaborator oracle on which every call succeeds. -/
def colOK : Collab := ⟨fun _ => false, fun _ => false, fun _ => false⟩

/-- A 30-element payload of distinct shifts. -/
def pay30 : List Shift := (List.range 30).map fun i => ⟨toString i, "", "", "", 0, 0⟩

/-- C7 (witness): the chunking theorem applied to the all-succeeding
oracle and the concrete 30-element payload. -/
theorem writeAllToDB_chunking_witness :
    writeAllToDB colOK pay30
      = ((chunkList pay30).map (fun c => Action.batchWrite (c.map addItemTTL)),
         none) ∧
    (chunkList pay30).map List.length = [25, 5] :=
  ⟨writeAllToDB_chunking.2.1 colOK pay30 (fun _ _ => rfl),
   writeAllToDB_chunking.2.2.1 pay30 (by simp [pay30])⟩

/-! ### C2, C3, C8: the request handler -/

/-- The two collaborator calls performed for one change event, in the
order `HandleRequest` performs them: the notification invoke first,
then the `PutItem` of the TTL-annotated shift. -/
def eventTrace (d : Diff) : List Action :=
  [Action.notify (constructMessage d), Action.put (addItemTTL d.shift)]

/-- The chunk carried by a batch-write call (`none` for the other
calls). -/
def batchItems : Action → Option (List ShiftExt)
  | Action.batchWrite items => some items
  | Action.notify _ => none
  | Action.put _ => none

theorem processChanges_ok (col : Collab) (l : List Diff)
    (h : ∀ d ∈ l, col.notifyFails (constructMessage d) = false ∧
      col.putFails (addItemTTL d.shift) = false) :
    processChanges col l = ((l.map eventTrace).flatten, none) := by
  induction l with
  | nil => rfl
  | cons d rest ih =>
    obtain ⟨h1, h2⟩ := h d (by simp)
    have ih' := ih fun e he => h e (by simp [he])
    simp [processChanges, h1, h2, ih', eventTrace]

theorem processChanges_notify_fail (col : Collab) (pre : List Diff) (d : Diff)
    (post : List Diff)
    (hok : ∀ e ∈ pre, col.notifyFails (constructMessage e) = false ∧
      col.putFails (addItemTTL e.shift) = false)
    (hfail : col.notifyFails (constructMessage d) = true) :
    processChanges col (pre ++ d :: post)
      = ((pre.map eventTrace).flatten, some "error sending notification") := by
  induction pre with
  | nil => simp [processChanges, hfail]
  | cons e rest ih =>
    obtain ⟨h1, h2⟩ := hok e (by simp)
    have ih' := ih fun e' he' => hok e' (by simp [he'])
    simp [processChanges, h1, h2, ih', eventTrace]

theorem processChanges_put_fail (col : Collab) (pre : List Diff) (d : Diff)
    (post : List Diff)
    (hok : ∀ e ∈ pre, col.notifyFails (constructMessage e) = false ∧
      col.putFails (addItemTTL e.shift) = false)
    (h1 : col.notifyFails (constructMessage d) = false)
    (h2 : col.putFails (addItemTTL d.shift) = true) :
    processChanges col (pre ++ d :: post)
      = ((pre.map eventTrace).flatten ++ [Action.notify (constructMessage d)],
         some "error writing shift to DynamoDB") := by
  induction pre with
  | nil => simp [processChanges, h1, h2]
  | cons e rest ih =>
    obtain ⟨he1, he2⟩ := hok e (by simp)
    have ih' := ih fun e' he' => hok e' (by simp [he'])
    simp [processChanges, he1, he2, ih', eventTrace]

theorem handleRequest_warm (col : Collab) (payload cachedData : List Shift)
    (h : cachedData ≠ []) :
    handleRequest col payload cachedData
      = match processChanges col (compareData payload cachedData) with
        | (tr, none) => (tr, Except.ok "Success")
        | (tr, some e) => (tr, Except.error e) := by
  cases cachedData with
  | nil => exact absurd rfl h
  | cons y ys => rfl

/-- C2: on a cold start (empty cached snapshot) the handler terminates
successfully having sent no notification and performed no single-item
put — it only issues the cold-start batch writes, whose chunks
concatenate to exactly one TTL-annotated copy of each `newData` item,
in order. -/
theorem handleRequest_cold (col : Collab) (payload : List Shift)
    (hok : ∀ c ∈ chunkList payload, col.unprocessed (c.map addItemTTL) = false) :
    (handleRequest col payload []).2 = Except.ok "Success" ∧
    (∀ msg, Action.notify msg ∉ (handleRequest col payload []).1) ∧
    (∀ item, Action.put item ∉ (handleRequest col payload []).1) ∧
    ((handleRequest col payload []).1.filterMap batchItems).flatten
      = payload.map addItemTTL := by
  have hw : handleRequest col payload []
      = ((chunkList payload).map (fun c => Action.batchWrite (c.map addItemTTL)),
         Except.ok "Success") := by
    unfold handleRequest writeAllToDB
    rw [runBatches_ok col (chunkList payload) hok]
    rfl
  rw [hw]
  refine ⟨rfl, ?_, ?_, ?_⟩
  · intro msg hmem
    rcases List.mem_map.mp hmem with ⟨c, -, habs⟩
    exact Action.noConfusion habs
  · intro item hmem
    rcases List.mem_map.mp hmem with ⟨c, -, habs⟩
    exact Action.noConfusion habs
  · rw [List.filterMap_map]
    have : (batchItems ∘ fun c => Action.batchWrite (c.map addItemTTL))
        = fun c : List Shift => some (c.map addItemTTL) := rfl
    rw [this]
    rw [show (chunkList payload).filterMap (fun c : List Shift => some (c.map addItemTTL))
        = (chunkList payload).map (fun c => c.map addItemTTL) from
      List.filterMap_eq_map_iff_forall_eq_some.mpr fun _ _ => rfl]
    rw [← List.map_flatten, chunkList_flatten]

/-- C2 (witness): the cold-start theorem at the all-succeeding oracle
and a concrete two-shift payload. -/
theorem handleRequest_cold_witness :
    (handleRequest colOK [⟨"A", "", "", "", 0, 1⟩, ⟨"B", "", "", "", 0, 2⟩] []).2
        = Except.ok "Success" ∧
    (∀ msg, Action.notify msg
        ∉ (handleRequest colOK [⟨"A", "", "", "", 0, 1⟩, ⟨"B", "", "", "", 0, 2⟩] []).1) ∧
    (∀ item, Action.put item
        ∉ (handleRequest colOK [⟨"A", "", "", "", 0, 1⟩, ⟨"B", "", "", "", 0, 2⟩] []).1) ∧
    ((handleRequest colOK [⟨"A", "", "", "", 0, 1⟩, ⟨"B", "", "", "", 0, 2⟩] []).1.filterMap
        batchItems).flatten
      = [(⟨"A", "", "", "", 0, 1⟩ : Shift), ⟨"B", "", "", "", 0, 2⟩].map addItemTTL :=
  handleRequest_cold colOK [⟨"A", "", "", "", 0, 1⟩, ⟨"B", "", "", "", 0, 2⟩]
    (fun _ _ => rfl)

/-- An oracle on which every notification invoke fails and everything
else succeeds. -/
def colNotifyFail : Collab := ⟨fun _ => false, fun _ => true, fun _ => false⟩

/-- An oracle on which every single-item put fails and everything else
succeeds. -/
def colPutFail : Collab := ⟨fun _ => false, fun _ => false, fun _ => true⟩

/-- A one-shift warm payload: identifier `"A"`, `updated` instant 2. -/
def warmPayload : List Shift := [⟨"A", "", "", "", 0, 2⟩]

/-- A cache holding identifier `"A"` with the older `updated` instant
1, so the warm cycle classifies the payload shift as `"updated"`. -/
def warmCache : List Shift := [⟨"A", "", "", "", 0, 1⟩]

/-- C3 (counterexample): in a warm cycle that produces one change
event, a notification dispatch failure leaves the handler's trace
empty — no `PutItem` was performed, so the shift record was NOT
persisted when the notification failure occurred: the code invokes the
notification before writing the record, and the claimed
persist-before-notify order fails. -/
theorem persist_before_notify_refuted :
    compareData warmPayload warmCache
      = [{ state := "updated", shift := ⟨"A", "", "", "", 0, 2⟩ }] ∧
    (handleRequest colNotifyFail warmPayload warmCache).2
      = Except.error "error sending notification" ∧
    (handleRequest colNotifyFail warmPayload warmCache).1 = [] :=
  ⟨rfl, rfl, rfl⟩

/-- C3 (amended: the order is notification first, then persistence):
in a warm cycle with all collaborator calls succeeding, the trace is
the concatenation of per-event pairs — the notification invoke followed
by the put of that event's record; and when the notification for an
event fails (all earlier events succeeding), the handler stops with the
notification error and the trace holds only the earlier events' pairs,
so the failed event's record has not been written and that event's
reconciliation state is lost for the cycle (only earlier events'
records are persisted). -/
theorem handleRequest_notify_before_put :
    (∀ (col : Collab) (payload cachedData : List Shift),
      cachedData ≠ [] →
      (∀ d ∈ compareData payload cachedData,
        col.notifyFails (constructMessage d) = false ∧
        col.putFails (addItemTTL d.shift) = false) →
      handleRequest col payload cachedData
        = (((compareData payload cachedData).map eventTrace).flatten,
           Except.ok "Success")) ∧
    (∀ (col : Collab) (payload cachedData : List Shift)
        (pre : List Diff) (d : Diff) (post : List Diff),
      cachedData ≠ [] →
      compareData payload cachedData = pre ++ d :: post →
      (∀ e ∈ pre, col.notifyFails (constructMessage e) = false ∧
        col.putFails (addItemTTL e.shift) = false) →
      col.notifyFails (constructMessage d) = true →
      handleRequest col payload cachedData
        = ((pre.map eventTrace).flatten,
           Except.error "error sending notification")) := by
  constructor
  · intro col payload cachedData hwarm hok
    rw [handleRequest_warm col payload cachedData hwarm,
      processChanges_ok col (compareData payload cachedData) hok]
  · intro col payload cachedData pre d post hwarm hsplit hok hfail
    rw [handleRequest_warm col payload cachedData hwarm, hsplit,
      processChanges_notify_fail col pre d post hok hfail]

/-- C3 (witness): the amended ordering at concrete warm inputs — a
fully successful cycle, and a cycle whose single event's notification
fails. -/
theorem handleRequest_notify_before_put_witness :
    handleRequest colOK warmPayload warmCache
      = (((compareData warmPayload warmCache).map eventTrace).flatten,
         Except.ok "Success") ∧
    handleRequest colNotifyFail warmPayload warmCache
      = ((([] : List Diff).map eventTrace).flatten,
         Except.error "error sending notification") :=
  ⟨handleRequest_notify_before_put.1 colOK warmPayload warmCache (by decide)
      (fun _ _ => ⟨rfl, rfl⟩),
   handleRequest_notify_before_put.2 colNotifyFail warmPayload warmCache []
      { state := "updated", shift := ⟨"A", "", "", "", 0, 2⟩ } [] (by decide) rfl
      (fun e he => absurd he (List.not_mem_nil e)) rfl⟩

/-- C8: if the notification or the persistence for some change event of
a warm cycle fails (all earlier events having succeeded), the handler
performs no call for any later event and returns a non-empty,
descriptive error, while the puts already committed for the earlier
events of the same cycle remain in the trace — no rollback, no
all-or-nothing guarantee. -/
theorem handleRequest_failure_aborts (col : Collab)
    (payload cachedData : List Shift) (pre : List Diff) (d : Diff)
    (post : List Diff)
    (hwarm : cachedData ≠ [])
    (hsplit : compareData payload cachedData = pre ++ d :: post)
    (hok : ∀ e ∈ pre, col.notifyFails (constructMessage e) = false ∧
      col.putFails (addItemTTL e.shift) = false)
    (hfail : col.notifyFails (constructMessage d) = true ∨
      (col.notifyFails (constructMessage d) = false ∧
        col.putFails (addItemTTL d.shift) = true)) :
    (∃ msg, msg ≠ "" ∧
      handleRequest col payload cachedData
        = ((pre.map eventTrace).flatten
             ++ (if col.notifyFails (constructMessage d) then []
                 else [Action.notify (constructMessage d)]),
           Except.error msg)) ∧
    (∀ e ∈ pre, Action.put (addItemTTL e.shift)
      ∈ (handleRequest col payload cachedData).1) := by
  have hmain : ∃ msg, msg ≠ "" ∧
      handleRequest col payload cachedData
        = ((pre.map eventTrace).flatten
             ++ (if col.notifyFails (constructMessage d) then []
                 else [Action.notify (constructMessage d)]),
           Except.error msg) := by
    rcases hfail with hn | ⟨hn, hp⟩
    · refine ⟨"error sending notification", by decide, ?_⟩
      rw [handleRequest_warm col payload cachedData hwarm, hsplit,
        processChanges_notify_fail col pre d post hok hn, hn]
      simp
    · refine ⟨"error writing shift to DynamoDB", by decide, ?_⟩
      rw [handleRequest_warm col payload cachedData hwarm, hsplit,
        processChanges_put_fail col pre d post hok hn hp, hn]
      simp
  refine ⟨hmain, ?_⟩
  obtain ⟨msg, -, heq⟩ := hmain
  intro e he
  rw [heq]
  apply List.mem_append_left
  rw [List.mem_flatten]
  exact ⟨eventTrace e, List.mem_map_of_mem eventTrace he, by simp [eventTrace]⟩

/-- C8 (witness): a warm cycle whose single event's persistence fails —
the error surfaces and the trace holds the event's notification but no
put. -/
theorem handleRequest_failure_aborts_witness :
    (∃ msg, msg ≠ "" ∧
      handleRequest colPutFail warmPayload warmCache
        = ((([] : List Diff).map eventTrace).flatten
             ++ (if colPutFail.notifyFails
                   (constructMessage
                     { state := "updated", shift := ⟨"A", "", "", "", 0, 2⟩ }) then []
                 else [Action.notify (constructMessage
                     { state := "updated", shift := ⟨"A", "", "", "", 0, 2⟩ })]),
           Except.error msg)) ∧
    (∀ e ∈ ([] : List Diff), Action.put (addItemTTL e.shift)
      ∈ (handleRequest colPutFail warmPayload warmCache).1) :=
  handleRequest_failure_aborts colPutFail warmPayload warmCache []
    { state := "updated", shift := ⟨"A", "", "", "", 0, 2⟩ } [] (by decide) rfl
    (fun e he => absurd he (List.not_mem_nil e)) (Or.inr ⟨rfl, rfl⟩)

end ShiftboardBot
